import Mathlib

/-!
Verification development for the ezbuffer repository: a cursor-based binary
buffer (class ByteBuf in the TypeScript source) with independent reader and
writer cursors over a fixed-size byte storage.

Embedding choices:
- the DataView storage is a list of bytes (natural numbers; every byte the
  program itself stores is below 256);
- cursor indices are integers (JavaScript numbers used as indices; the source
  never validates them, and they can go negative via setReaderIndex or
  skipReader);
- a DataView access out of bounds throws a RangeError in JavaScript; here
  every operation that touches storage returns an Option, none standing for
  the thrown error;
- JavaScript strings are lists of UTF-16 code units (what charCodeAt and
  String.fromCharCode operate on);
- the float operations (getFloat32 and setFloat32) are modelled on the raw
  big-endian 32-bit pattern of the float; the IEEE-754 interpretation of the
  pattern is not modelled, which is enough for the cursor and framing
  properties stated about them.
-/

/-- Interpretation of a stored byte by DataView.getInt8: two's-complement
signed, so bytes 128..255 map to -128..-1. -/
def toSigned8 (b : Nat) : Int :=
  if b < 128 then (b : Int) else (b : Int) - 256

/-- Interpretation of a k-byte unsigned value as two's-complement signed,
as DataView.getInt16, getInt32 and getBigInt64 do for k = 2, 4, 8. -/
def toSignedW (k : Nat) (w : Nat) : Int :=
  if 2 * w < 256 ^ k then (w : Int) else (w : Int) - 256 ^ k

/-- Wrapping of an integer argument to k bytes, as the ToIntN conversions
performed by DataView.setInt8, setInt16, setInt32 and setBigInt64. -/
def wrapW (k : Nat) (v : Int) : Nat :=
  (v % ((256 ^ k : Nat) : Int)).toNat

/-- Big-endian byte decomposition: encBE k w lists the k bytes of w mod 256^k,
most significant first, as a DataView setIntN call stores them. -/
def encBE : Nat → Nat → List Nat
  | 0, _ => []
  | k + 1, w => (w / 256 ^ k) % 256 :: encBE k w

/-- Big-endian recomposition of a byte list, as a DataView getIntN call
reads it. -/
def decBE : List Nat → Nat
  | [] => 0
  | b :: bs => b * 256 ^ bs.length + decBE bs

/-- Read one byte of storage; none when the index is outside the view,
standing for the RangeError a DataView access throws. -/
def getByte (data : List Nat) (i : Int) : Option Nat :=
  if 0 ≤ i then data.get? i.toNat else none

/-- Read k consecutive bytes of storage starting at index i. -/
def getBytes (data : List Nat) (i : Int) : Nat → Option (List Nat)
  | 0 => some []
  | k + 1 =>
    (getByte data i).bind fun b =>
      (getBytes data (i + 1) k).map fun bs => b :: bs

/-- Overwrite one byte of storage; none when the index is outside the view. -/
def setByte (data : List Nat) (i : Int) (b : Nat) : Option (List Nat) :=
  if 0 ≤ i ∧ i.toNat < data.length then some (data.set i.toNat b) else none

/-- Overwrite consecutive bytes of storage starting at index i. -/
def setBytes (data : List Nat) (i : Int) : List Nat → Option (List Nat)
  | [] => some data
  | b :: bs => (setByte data i b).bind fun d1 => setBytes d1 (i + 1) bs

/-- The ByteBuf state: the two cursor fields and the DataView storage of the
source class. -/
structure ByteBuf where
  readerIndex : Int
  writerIndex : Int
  data : List Nat
deriving Repr, DecidableEq

namespace ByteBuf

/-- Source constructor(data): wraps the given bytes, both cursors at 0. -/
def fromData (d : List Nat) : ByteBuf :=
  { readerIndex := 0, writerIndex := 0, data := d }

/-- Source ByteBuf.emptyBuffer(size): size zero bytes, cursors at 0. -/
def emptyBuffer (size : Nat) : ByteBuf :=
  fromData (List.replicate size 0)

/-- Source readBool: reads one byte with getInt8, advances the reader cursor
by 1, result is whether the signed byte equals 1. -/
def readBool (buf : ByteBuf) : Option (Bool × ByteBuf) :=
  (getByte buf.data buf.readerIndex).map fun b =>
    (toSigned8 b == 1, { buf with readerIndex := buf.readerIndex + 1 })

/-- Source readByteSigned: one byte via getInt8, reader cursor plus 1. -/
def readByteSigned (buf : ByteBuf) : Option (Int × ByteBuf) :=
  (getByte buf.data buf.readerIndex).map fun b =>
    (toSigned8 b, { buf with readerIndex := buf.readerIndex + 1 })

/-- Source readByteUnsigned: getInt8 plus 128, reader cursor plus 1. -/
def readByteUnsigned (buf : ByteBuf) : Option (Int × ByteBuf) :=
  (getByte buf.data buf.readerIndex).map fun b =>
    (toSigned8 b + 128, { buf with readerIndex := buf.readerIndex + 1 })

/-- Source readShort: two bytes via getInt16 (big-endian signed), reader
cursor plus 2. -/
def readShort (buf : ByteBuf) : Option (Int × ByteBuf) :=
  (getBytes buf.data buf.readerIndex 2).map fun bs =>
    (toSignedW 2 (decBE bs), { buf with readerIndex := buf.readerIndex + 2 })

/-- Source readFloat: four bytes via getFloat32, reader cursor plus 4; the
value is modelled as the raw big-endian 32-bit pattern. -/
def readFloat (buf : ByteBuf) : Option (Nat × ByteBuf) :=
  (getBytes buf.data buf.readerIndex 4).map fun bs =>
    (decBE bs, { buf with readerIndex := buf.readerIndex + 4 })

/-- Source readInt: four bytes via getInt32 (big-endian signed), reader
cursor plus 4. -/
def readInt (buf : ByteBuf) : Option (Int × ByteBuf) :=
  (getBytes buf.data buf.readerIndex 4).map fun bs =>
    (toSignedW 4 (decBE bs), { buf with readerIndex := buf.readerIndex + 4 })

/-- Source readLong: eight bytes via getBigInt64 (big-endian signed), reader
cursor plus 8. -/
def readLong (buf : ByteBuf) : Option (Int × ByteBuf) :=
  (getBytes buf.data buf.readerIndex 8).map fun bs =>
    (toSignedW 8 (decBE bs), { buf with readerIndex := buf.readerIndex + 8 })

/-- Source readByteString: reads a 4-byte signed length n with readInt, then
n bytes with getUint8 building the string one code unit per byte (the loop
body runs only when 0 < n), then adds n to the reader cursor. -/
def readByteString (buf : ByteBuf) : Option (List Nat × ByteBuf) :=
  (readInt buf).bind fun p =>
    if 0 < p.1 then
      (getBytes p.2.data p.2.readerIndex p.1.toNat).map fun bs =>
        (bs, { p.2 with readerIndex := p.2.readerIndex + p.1 })
    else
      some ([], { p.2 with readerIndex := p.2.readerIndex + p.1 })

/-- Source writeBool: setInt8 of 1 for true and 0 for false at the writer
cursor, then writer cursor plus 1. -/
def writeBool (buf : ByteBuf) (b : Bool) : Option ByteBuf :=
  (setByte buf.data buf.writerIndex (if b then 1 else 0)).map fun d =>
    { buf with data := d, writerIndex := buf.writerIndex + 1 }

/-- Source writeByteSigned: setInt8 of the argument (wrapped mod 256 by the
ToInt8 conversion) at the writer cursor, then writer cursor plus 1. -/
def writeByteSigned (buf : ByteBuf) (v : Int) : Option ByteBuf :=
  (setByte buf.data buf.writerIndex (wrapW 1 v)).map fun d =>
    { buf with data := d, writerIndex := buf.writerIndex + 1 }

/-- Source writeByteUnsigned: setInt8 of the argument minus 128, then writer
cursor plus 1. -/
def writeByteUnsigned (buf : ByteBuf) (v : Int) : Option ByteBuf :=
  (setByte buf.data buf.writerIndex (wrapW 1 (v - 128))).map fun d =>
    { buf with data := d, writerIndex := buf.writerIndex + 1 }

/-- Source writeShort: setInt16 big-endian at the writer cursor, then writer
cursor plus 2. -/
def writeShort (buf : ByteBuf) (v : Int) : Option ByteBuf :=
  (setBytes buf.data buf.writerIndex (encBE 2 (wrapW 2 v))).map fun d =>
    { buf with data := d, writerIndex := buf.writerIndex + 2 }

/-- Source writeFloat: setFloat32 big-endian at the writer cursor, then
writer cursor plus 4; the float is modelled as its raw 32-bit pattern. -/
def writeFloat (buf : ByteBuf) (bits : Nat) : Option ByteBuf :=
  (setBytes buf.data buf.writerIndex (encBE 4 bits)).map fun d =>
    { buf with data := d, writerIndex := buf.writerIndex + 4 }

/-- Source writeInt: setInt32 big-endian at the writer cursor, then writer
cursor plus 4. -/
def writeInt (buf : ByteBuf) (v : Int) : Option ByteBuf :=
  (setBytes buf.data buf.writerIndex (encBE 4 (wrapW 4 v))).map fun d =>
    { buf with data := d, writerIndex := buf.writerIndex + 4 }

/-- Source writeLong: setBigInt64 big-endian at the writer cursor, then
writer cursor plus 8. -/
def writeLong (buf : ByteBuf) (v : Int) : Option ByteBuf :=
  (setBytes buf.data buf.writerIndex (encBE 8 (wrapW 8 v))).map fun d =>
    { buf with data := d, writerIndex := buf.writerIndex + 8 }

/-- The character loop of writeByteString: writeByteSigned of each code unit
in order. -/
def writeChars (buf : ByteBuf) : List Nat → Option ByteBuf
  | [] => some buf
  | c :: cs => (writeByteSigned buf (c : Int)).bind fun buf1 => writeChars buf1 cs

/-- Source writeByteString: writeInt of the length, then writeByteSigned of
charCodeAt(i) for each index i in order. -/
def writeByteString (buf : ByteBuf) (s : List Nat) : Option ByteBuf :=
  (writeInt buf (s.length : Int)).bind fun buf1 => writeChars buf1 s

/-- Source getReaderIndex. -/
def getReaderIndex (buf : ByteBuf) : Int := buf.readerIndex

/-- Source getWriterIndex. -/
def getWriterIndex (buf : ByteBuf) : Int := buf.writerIndex

/-- Source setReaderIndex: unconditional overwrite, no validation. -/
def setReaderIndex (buf : ByteBuf) (i : Int) : ByteBuf :=
  { buf with readerIndex := i }

/-- Source setWriterIndex: unconditional overwrite, no validation. -/
def setWriterIndex (buf : ByteBuf) (i : Int) : ByteBuf :=
  { buf with writerIndex := i }

/-- Source skipReader: adds the argument (possibly negative) to the reader
cursor. -/
def skipReader (buf : ByteBuf) (s : Int) : ByteBuf :=
  { buf with readerIndex := buf.readerIndex + s }

/-- Source skipWriter: adds the argument (possibly negative) to the writer
cursor. -/
def skipWriter (buf : ByteBuf) (s : Int) : ByteBuf :=
  { buf with writerIndex := buf.writerIndex + s }

/-- Source bytes(): the whole backing storage, independent of the cursors. -/
def bytes (buf : ByteBuf) : List Nat := buf.data

end ByteBuf

/-- The public state-changing operations of ByteBuf, for reachability and
framing statements over arbitrary call sequences. -/
inductive Op where
  | opReadBool
  | opReadByteSigned
  | opReadByteUnsigned
  | opReadShort
  | opReadFloat
  | opReadInt
  | opReadLong
  | opReadByteString
  | opWriteBool (b : Bool)
  | opWriteByteSigned (v : Int)
  | opWriteByteUnsigned (v : Int)
  | opWriteShort (v : Int)
  | opWriteFloat (bits : Nat)
  | opWriteInt (v : Int)
  | opWriteLong (v : Int)
  | opWriteByteString (s : List Nat)
  | opSetReaderIndex (i : Int)
  | opSetWriterIndex (i : Int)
  | opSkipReader (n : Int)
  | opSkipWriter (n : Int)
deriving Repr, DecidableEq

/-- One method call on the buffer; none when the call throws (out-of-bounds
DataView access). Read results are discarded, only the state remains. -/
def step (buf : ByteBuf) : Op → Option ByteBuf
  | Op.opReadBool => (buf.readBool).map Prod.snd
  | Op.opReadByteSigned => (buf.readByteSigned).map Prod.snd
  | Op.opReadByteUnsigned => (buf.readByteUnsigned).map Prod.snd
  | Op.opReadShort => (buf.readShort).map Prod.snd
  | Op.opReadFloat => (buf.readFloat).map Prod.snd
  | Op.opReadInt => (buf.readInt).map Prod.snd
  | Op.opReadLong => (buf.readLong).map Prod.snd
  | Op.opReadByteString => (buf.readByteString).map Prod.snd
  | Op.opWriteBool b => buf.writeBool b
  | Op.opWriteByteSigned v => buf.writeByteSigned v
  | Op.opWriteByteUnsigned v => buf.writeByteUnsigned v
  | Op.opWriteShort v => buf.writeShort v
  | Op.opWriteFloat bits => buf.writeFloat bits
  | Op.opWriteInt v => buf.writeInt v
  | Op.opWriteLong v => buf.writeLong v
  | Op.opWriteByteString s => buf.writeByteString s
  | Op.opSetReaderIndex i => some (buf.setReaderIndex i)
  | Op.opSetWriterIndex i => some (buf.setWriterIndex i)
  | Op.opSkipReader n => some (buf.skipReader n)
  | Op.opSkipWriter n => some (buf.skipWriter n)

/-- A sequence of method calls; a thrown call aborts the sequence. -/
def run (buf : ByteBuf) : List Op → Option ByteBuf
  | [] => some buf
  | op :: ops => (step buf op).bind fun buf1 => run buf1 ops

/-- Operations of the write side: the writes together with the writer-cursor
operations. -/
def isWriteOp : Op → Bool
  | Op.opWriteBool _ => true
  | Op.opWriteByteSigned _ => true
  | Op.opWriteByteUnsigned _ => true
  | Op.opWriteShort _ => true
  | Op.opWriteFloat _ => true
  | Op.opWriteInt _ => true
  | Op.opWriteLong _ => true
  | Op.opWriteByteString _ => true
  | Op.opSetWriterIndex _ => true
  | Op.opSkipWriter _ => true
  | _ => false

/-- Operations of the read side: the reads together with the reader-cursor
operations. -/
def isReadOp : Op → Bool
  | Op.opReadBool => true
  | Op.opReadByteSigned => true
  | Op.opReadByteUnsigned => true
  | Op.opReadShort => true
  | Op.opReadFloat => true
  | Op.opReadInt => true
  | Op.opReadLong => true
  | Op.opReadByteString => true
  | Op.opSetReaderIndex _ => true
  | Op.opSkipReader _ => true
  | _ => false

/-- Operations whose arguments keep the cursor arithmetic nonneg: the
cursor-setting and skipping operations restricted to nonnegative arguments,
and readByteString excluded (its cursor move 4 + n depends on the decoded
length prefix n, which a corrupt buffer can make negative). -/
def guardedOp : Op → Bool
  | Op.opSetReaderIndex i => decide (0 ≤ i)
  | Op.opSetWriterIndex i => decide (0 ≤ i)
  | Op.opSkipReader n => decide (0 ≤ n)
  | Op.opSkipWriter n => decide (0 ≤ n)
  | Op.opReadByteString => false
  | _ => true

/-! ### Arithmetic helper lemmas -/

theorem encBE_length (k w : Nat) : (encBE k w).length = k := by
  induction k generalizing w with
  | zero => simp [encBE]
  | succ k ih => simp [encBE, ih]

theorem decBE_encBE (k w : Nat) : decBE (encBE k w) = w % 256 ^ k := by
  induction k generalizing w with
  | zero => simp [encBE, decBE, Nat.mod_one]
  | succ k ih =>
    simp only [encBE, decBE, ih, encBE_length]
    have h1 : w % (256 ^ k * 256) / 256 ^ k = w / 256 ^ k % 256 :=
      Nat.mod_mul_right_div_self w (256 ^ k) 256
    have h2 : w % (256 ^ k * 256) % 256 ^ k = w % 256 ^ k :=
      Nat.mod_mod_of_dvd w ⟨256, rfl⟩
    have h3 := Nat.div_add_mod (w % (256 ^ k * 256)) (256 ^ k)
    rw [h1, h2] at h3
    rw [pow_succ, ← h3]
    ring

theorem wrapW_lt (k : Nat) (v : Int) : wrapW k v < 256 ^ k := by
  have hpos : (0 : Int) < ((256 ^ k : Nat) : Int) := by positivity
  have h1 : 0 ≤ v % ((256 ^ k : Nat) : Int) := Int.emod_nonneg v (by omega)
  have h2 : v % ((256 ^ k : Nat) : Int) < ((256 ^ k : Nat) : Int) :=
    Int.emod_lt_of_pos v hpos
  unfold wrapW
  omega

theorem signedRound1 (v : Int) (h1 : -128 ≤ v) (h2 : v < 128) :
    toSigned8 (wrapW 1 v) = v := by
  simp only [toSigned8, wrapW]
  norm_num
  split <;> omega

theorem signedRound2 (v : Int) (h1 : -32768 ≤ v) (h2 : v < 32768) :
    toSignedW 2 (wrapW 2 v) = v := by
  simp only [toSignedW, wrapW]
  norm_num
  split <;> omega

theorem signedRound4 (v : Int) (h1 : -2147483648 ≤ v) (h2 : v < 2147483648) :
    toSignedW 4 (wrapW 4 v) = v := by
  simp only [toSignedW, wrapW]
  norm_num
  split <;> omega

theorem signedRound8 (v : Int) (h1 : -9223372036854775808 ≤ v)
    (h2 : v < 9223372036854775808) : toSignedW 8 (wrapW 8 v) = v := by
  simp only [toSignedW, wrapW]
  norm_num
  split <;> omega

/-! ### Storage access lemmas -/

theorem setByte_some (d : List Nat) (i : Int) (b : Nat) (d1 : List Nat)
    (h : setByte d i b = some d1) :
    0 ≤ i ∧ i.toNat < d.length ∧ d1 = d.set i.toNat b := by
  unfold setByte at h
  split at h
  · rename_i h0
    exact ⟨h0.1, h0.2, (Option.some.inj h).symm⟩
  · cases h

theorem getByte_setByte_self (d : List Nat) (i : Int) (b : Nat) (d1 : List Nat)
    (h : setByte d i b = some d1) : getByte d1 i = some b := by
  obtain ⟨h0, h1, rfl⟩ := setByte_some d i b d1 h
  unfold getByte
  rw [if_pos h0]
  exact List.get?_set_eq_of_lt b h1

theorem getByte_setByte_ne (d : List Nat) (i : Int) (b : Nat) (d1 : List Nat)
    (h : setByte d i b = some d1) (j : Int) (hj : j ≠ i) :
    getByte d1 j = getByte d j := by
  obtain ⟨h0, h1, rfl⟩ := setByte_some d i b d1 h
  unfold getByte
  split
  · rename_i hj0
    exact List.get?_set_ne b d (by omega)
  · rfl

theorem setBytes_length (bs : List Nat) :
    ∀ d i d1, setBytes d i bs = some d1 → d1.length = d.length := by
  induction bs with
  | nil =>
    intro d i d1 h
    cases h
    rfl
  | cons b bs ih =>
    intro d i d1 h
    simp only [setBytes, Option.bind_eq_some] at h
    obtain ⟨d2, hset, hrest⟩ := h
    obtain ⟨_, _, rfl⟩ := setByte_some d i b d2 hset
    rw [ih _ _ _ hrest, List.length_set]

theorem getByte_setBytes_frame (bs : List Nat) :
    ∀ d i d1 j, setBytes d i bs = some d1 →
      (j < i ∨ i + (bs.length : Int) ≤ j) → getByte d1 j = getByte d j := by
  induction bs with
  | nil =>
    intro d i d1 j h _
    cases h
    rfl
  | cons b bs ih =>
    intro d i d1 j h hj
    simp only [setBytes, Option.bind_eq_some] at h
    obtain ⟨d2, hset, hrest⟩ := h
    have h1 : getByte d1 j = getByte d2 j := by
      refine ih d2 (i + 1) d1 j hrest ?_
      simp only [List.length_cons] at hj
      push_cast at hj ⊢
      omega
    rw [h1]
    refine getByte_setByte_ne d i b d2 hset j ?_
    simp only [List.length_cons] at hj
    push_cast at hj
    omega

theorem getBytes_setBytes_self (bs : List Nat) :
    ∀ d i d1, setBytes d i bs = some d1 → getBytes d1 i bs.length = some bs := by
  induction bs with
  | nil =>
    intro d i d1 h
    rfl
  | cons b bs ih =>
    intro d i d1 h
    simp only [setBytes, Option.bind_eq_some] at h
    obtain ⟨d2, hset, hrest⟩ := h
    have hhead : getByte d1 i = some b := by
      have hframe : getByte d1 i = getByte d2 i :=
        getByte_setBytes_frame bs d2 (i + 1) d1 i hrest (by omega)
      rw [hframe]
      exact getByte_setByte_self d i b d2 hset
    simp only [List.length_cons, getBytes, hhead, Option.bind_eq_some,
      Option.some.injEq]
    exact ⟨b, rfl, by simp [ih d2 (i + 1) d1 hrest]⟩

theorem getBytes_congr (k : Nat) :
    ∀ (d1 d2 : List Nat) (i : Int),
      (∀ j, i ≤ j → j < i + (k : Int) → getByte d1 j = getByte d2 j) →
      getBytes d1 i k = getBytes d2 i k := by
  induction k with
  | zero => intro d1 d2 i _; rfl
  | succ k ih =>
    intro d1 d2 i h
    simp only [getBytes]
    rw [h i (by omega) (by push_cast; omega),
      ih d1 d2 (i + 1) fun j hj1 hj2 => h j (by omega) (by push_cast at hj2 ⊢; omega)]

/-! ### Operation inversion lemmas -/

theorem readBool_some (buf : ByteBuf) (r : Bool) (buf1 : ByteBuf)
    (h : buf.readBool = some (r, buf1)) :
    ∃ b, getByte buf.data buf.readerIndex = some b ∧ r = (toSigned8 b == 1) ∧
      buf1 = { buf with readerIndex := buf.readerIndex + 1 } := by
  simp only [ByteBuf.readBool, Option.map_eq_some'] at h
  obtain ⟨b, hb, heq⟩ := h
  obtain ⟨h1, h2⟩ := Prod.mk.injEq .. ▸ heq
  exact ⟨b, hb, h1.symm, h2.symm⟩

theorem readByteSigned_some (buf : ByteBuf) (r : Int) (buf1 : ByteBuf)
    (h : buf.readByteSigned = some (r, buf1)) :
    ∃ b, getByte buf.data buf.readerIndex = some b ∧ r = toSigned8 b ∧
      buf1 = { buf with readerIndex := buf.readerIndex + 1 } := by
  simp only [ByteBuf.readByteSigned, Option.map_eq_some'] at h
  obtain ⟨b, hb, heq⟩ := h
  obtain ⟨h1, h2⟩ := Prod.mk.injEq .. ▸ heq
  exact ⟨b, hb, h1.symm, h2.symm⟩

theorem readByteUnsigned_some (buf : ByteBuf) (r : Int) (buf1 : ByteBuf)
    (h : buf.readByteUnsigned = some (r, buf1)) :
    ∃ b, getByte buf.data buf.readerIndex = some b ∧ r = toSigned8 b + 128 ∧
      buf1 = { buf with readerIndex := buf.readerIndex + 1 } := by
  simp only [ByteBuf.readByteUnsigned, Option.map_eq_some'] at h
  obtain ⟨b, hb, heq⟩ := h
  obtain ⟨h1, h2⟩ := Prod.mk.injEq .. ▸ heq
  exact ⟨b, hb, h1.symm, h2.symm⟩

theorem readShort_some (buf : ByteBuf) (r : Int) (buf1 : ByteBuf)
    (h : buf.readShort = some (r, buf1)) :
    ∃ bs, getBytes buf.data buf.readerIndex 2 = some bs ∧
      r = toSignedW 2 (decBE bs) ∧
      buf1 = { buf with readerIndex := buf.readerIndex + 2 } := by
  simp only [ByteBuf.readShort, Option.map_eq_some'] at h
  obtain ⟨bs, hbs, heq⟩ := h
  obtain ⟨h1, h2⟩ := Prod.mk.injEq .. ▸ heq
  exact ⟨bs, hbs, h1.symm, h2.symm⟩

theorem readFloat_some (buf : ByteBuf) (r : Nat) (buf1 : ByteBuf)
    (h : buf.readFloat = some (r, buf1)) :
    ∃ bs, getBytes buf.data buf.readerIndex 4 = some bs ∧ r = decBE bs ∧
      buf1 = { buf with readerIndex := buf.readerIndex + 4 } := by
  simp only [ByteBuf.readFloat, Option.map_eq_some'] at h
  obtain ⟨bs, hbs, heq⟩ := h
  obtain ⟨h1, h2⟩ := Prod.mk.injEq .. ▸ heq
  exact ⟨bs, hbs, h1.symm, h2.symm⟩

theorem readInt_some (buf : ByteBuf) (r : Int) (buf1 : ByteBuf)
    (h : buf.readInt = some (r, buf1)) :
    ∃ bs, getBytes buf.data buf.readerIndex 4 = some bs ∧
      r = toSignedW 4 (decBE bs) ∧
      buf1 = { buf with readerIndex := buf.readerIndex + 4 } := by
  simp only [ByteBuf.readInt, Option.map_eq_some'] at h
  obtain ⟨bs, hbs, heq⟩ := h
  obtain ⟨h1, h2⟩ := Prod.mk.injEq .. ▸ heq
  exact ⟨bs, hbs, h1.symm, h2.symm⟩

theorem readLong_some (buf : ByteBuf) (r : Int) (buf1 : ByteBuf)
    (h : buf.readLong = some (r, buf1)) :
    ∃ bs, getBytes buf.data buf.readerIndex 8 = some bs ∧
      r = toSignedW 8 (decBE bs) ∧
      buf1 = { buf with readerIndex := buf.readerIndex + 8 } := by
  simp only [ByteBuf.readLong, Option.map_eq_some'] at h
  obtain ⟨bs, hbs, heq⟩ := h
  obtain ⟨h1, h2⟩ := Prod.mk.injEq .. ▸ heq
  exact ⟨bs, hbs, h1.symm, h2.symm⟩

theorem readByteString_some (buf : ByteBuf) (s : List Nat) (buf1 : ByteBuf)
    (h : buf.readByteString = some (s, buf1)) :
    ∃ n, buf.readInt = some (n, { buf with readerIndex := buf.readerIndex + 4 }) ∧
      buf1.writerIndex = buf.writerIndex ∧ buf1.data = buf.data ∧
      buf1.readerIndex = buf.readerIndex + 4 + n := by
  simp only [ByteBuf.readByteString, Option.bind_eq_some] at h
  obtain ⟨⟨n, buf2⟩, hread, hrest⟩ := h
  obtain ⟨bs, hbs, hr, hbuf2⟩ := readInt_some buf n buf2 hread
  refine ⟨n, by rw [hread, hbuf2], ?_⟩
  subst hbuf2
  simp only at hrest
  split at hrest
  · simp only [Option.map_eq_some'] at hrest
    obtain ⟨cs, hcs, heq⟩ := hrest
    obtain ⟨h1, h2⟩ := Prod.mk.injEq .. ▸ heq
    subst h2
    exact ⟨rfl, rfl, rfl⟩
  · obtain ⟨h1, h2⟩ := Prod.mk.injEq .. ▸ (Option.some.inj hrest)
    subst h2
    exact ⟨rfl, rfl, rfl⟩

theorem writeBool_some (buf : ByteBuf) (b : Bool) (buf1 : ByteBuf)
    (h : buf.writeBool b = some buf1) :
    ∃ d, setByte buf.data buf.writerIndex (if b then 1 else 0) = some d ∧
      buf1 = { buf with data := d, writerIndex := buf.writerIndex + 1 } := by
  simp only [ByteBuf.writeBool, Option.map_eq_some'] at h
  obtain ⟨d, hd, heq⟩ := h
  exact ⟨d, hd, heq.symm⟩

theorem writeByteSigned_some (buf : ByteBuf) (v : Int) (buf1 : ByteBuf)
    (h : buf.writeByteSigned v = some buf1) :
    ∃ d, setByte buf.data buf.writerIndex (wrapW 1 v) = some d ∧
      buf1 = { buf with data := d, writerIndex := buf.writerIndex + 1 } := by
  simp only [ByteBuf.writeByteSigned, Option.map_eq_some'] at h
  obtain ⟨d, hd, heq⟩ := h
  exact ⟨d, hd, heq.symm⟩

theorem writeByteUnsigned_some (buf : ByteBuf) (v : Int) (buf1 : ByteBuf)
    (h : buf.writeByteUnsigned v = some buf1) :
    ∃ d, setByte buf.data buf.writerIndex (wrapW 1 (v - 128)) = some d ∧
      buf1 = { buf with data := d, writerIndex := buf.writerIndex + 1 } := by
  simp only [ByteBuf.writeByteUnsigned, Option.map_eq_some'] at h
  obtain ⟨d, hd, heq⟩ := h
  exact ⟨d, hd, heq.symm⟩

theorem writeShort_some (buf : ByteBuf) (v : Int) (buf1 : ByteBuf)
    (h : buf.writeShort v = some buf1) :
    ∃ d, setBytes buf.data buf.writerIndex (encBE 2 (wrapW 2 v)) = some d ∧
      buf1 = { buf with data := d, writerIndex := buf.writerIndex + 2 } := by
  simp only [ByteBuf.writeShort, Option.map_eq_some'] at h
  obtain ⟨d, hd, heq⟩ := h
  exact ⟨d, hd, heq.symm⟩

theorem writeFloat_some (buf : ByteBuf) (bits : Nat) (buf1 : ByteBuf)
    (h : buf.writeFloat bits = some buf1) :
    ∃ d, setBytes buf.data buf.writerIndex (encBE 4 bits) = some d ∧
      buf1 = { buf with data := d, writerIndex := buf.writerIndex + 4 } := by
  simp only [ByteBuf.writeFloat, Option.map_eq_some'] at h
  obtain ⟨d, hd, heq⟩ := h
  exact ⟨d, hd, heq.symm⟩

theorem writeInt_some (buf : ByteBuf) (v : Int) (buf1 : ByteBuf)
    (h : buf.writeInt v = some buf1) :
    ∃ d, setBytes buf.data buf.writerIndex (encBE 4 (wrapW 4 v)) = some d ∧
      buf1 = { buf with data := d, writerIndex := buf.writerIndex + 4 } := by
  simp only [ByteBuf.writeInt, Option.map_eq_some'] at h
  obtain ⟨d, hd, heq⟩ := h
  exact ⟨d, hd, heq.symm⟩

theorem writeLong_some (buf : ByteBuf) (v : Int) (buf1 : ByteBuf)
    (h : buf.writeLong v = some buf1) :
    ∃ d, setBytes buf.data buf.writerIndex (encBE 8 (wrapW 8 v)) = some d ∧
      buf1 = { buf with data := d, writerIndex := buf.writerIndex + 8 } := by
  simp only [ByteBuf.writeLong, Option.map_eq_some'] at h
  obtain ⟨d, hd, heq⟩ := h
  exact ⟨d, hd, heq.symm⟩

theorem wrapW_one_natCast (c : Nat) : wrapW 1 ((c : Nat) : Int) = c % 256 := by
  unfold wrapW
  norm_num
  omega

theorem writeChars_eq_setBytes (cs : List Nat) :
    ∀ buf : ByteBuf,
      buf.writeChars cs =
        (setBytes buf.data buf.writerIndex (cs.map fun c => c % 256)).map
          fun d =>
            { buf with data := d, writerIndex := buf.writerIndex + cs.length } := by
  induction cs with
  | nil =>
    intro buf
    simp [ByteBuf.writeChars, setBytes]
  | cons c cs ih =>
    intro buf
    simp only [ByteBuf.writeChars, ByteBuf.writeByteSigned, List.map_cons, setBytes,
      wrapW_one_natCast]
    cases hset : setByte buf.data buf.writerIndex (c % 256) with
    | none => simp
    | some d2 =>
      simp only [Option.map_some', Option.some_bind]
      rw [ih]
      simp only [List.length_cons]
      cases hsb : setBytes d2 (buf.writerIndex + 1) (cs.map fun c => c % 256) with
      | none => simp
      | some d3 =>
        simp only [Option.map_some', Option.some.injEq, ByteBuf.mk.injEq,
          true_and, and_true]
        push_cast
        ring

theorem writeByteString_some (buf : ByteBuf) (s : List Nat) (buf1 : ByteBuf)
    (h : buf.writeByteString s = some buf1) :
    ∃ d d2,
      setBytes buf.data buf.writerIndex (encBE 4 (wrapW 4 (s.length : Int))) =
        some d ∧
      setBytes d (buf.writerIndex + 4) (s.map fun c => c % 256) = some d2 ∧
      buf1 = { buf with data := d2, writerIndex := buf.writerIndex + 4 + (s.length : Int) } := by
  simp only [ByteBuf.writeByteString, Option.bind_eq_some] at h
  obtain ⟨buf2, hint, hchars⟩ := h
  obtain ⟨d, hset, rfl⟩ := writeInt_some buf (s.length : Int) buf2 hint
  rw [writeChars_eq_setBytes] at hchars
  simp only [Option.map_eq_some'] at hchars
  obtain ⟨d2, hset2, heq⟩ := hchars
  refine ⟨d, d2, hset, hset2, ?_⟩
  rw [← heq]

/-! ### Round-trip helper lemmas -/

theorem writeBool_readBool (buf : ByteBuf) (b : Bool) (buf1 : ByteBuf)
    (h : buf.writeBool b = some buf1) :
    ({ buf1 with readerIndex := buf.writerIndex } : ByteBuf).readBool =
      some (b, { buf1 with readerIndex := buf.writerIndex + 1 }) := by
  obtain ⟨d, hset, rfl⟩ := writeBool_some buf b buf1 h
  have hget : getByte d buf.writerIndex = some (if b then 1 else 0) :=
    getByte_setByte_self _ _ _ _ hset
  simp only [ByteBuf.readBool, hget, Option.map_some', Option.some.injEq,
    Prod.mk.injEq, and_true]
  cases b <;> rfl

theorem writeByteSigned_readByteSigned (buf : ByteBuf) (v : Int) (buf1 : ByteBuf)
    (h1 : -128 ≤ v) (h2 : v < 128) (h : buf.writeByteSigned v = some buf1) :
    ({ buf1 with readerIndex := buf.writerIndex } : ByteBuf).readByteSigned =
      some (v, { buf1 with readerIndex := buf.writerIndex + 1 }) := by
  obtain ⟨d, hset, rfl⟩ := writeByteSigned_some buf v buf1 h
  have hget : getByte d buf.writerIndex = some (wrapW 1 v) :=
    getByte_setByte_self _ _ _ _ hset
  simp only [ByteBuf.readByteSigned, hget, Option.map_some', Option.some.injEq,
    Prod.mk.injEq, and_true]
  exact signedRound1 v h1 h2

theorem writeShort_readShort (buf : ByteBuf) (v : Int) (buf1 : ByteBuf)
    (h1 : -32768 ≤ v) (h2 : v < 32768) (h : buf.writeShort v = some buf1) :
    ({ buf1 with readerIndex := buf.writerIndex } : ByteBuf).readShort =
      some (v, { buf1 with readerIndex := buf.writerIndex + 2 }) := by
  obtain ⟨d, hset, rfl⟩ := writeShort_some buf v buf1 h
  have hget : getBytes d buf.writerIndex 2 = some (encBE 2 (wrapW 2 v)) := by
    have hg := getBytes_setBytes_self _ _ _ _ hset
    rwa [encBE_length] at hg
  simp only [ByteBuf.readShort, hget, Option.map_some', Option.some.injEq,
    Prod.mk.injEq, and_true]
  rw [decBE_encBE, Nat.mod_eq_of_lt (wrapW_lt 2 v)]
  exact signedRound2 v h1 h2

theorem writeInt_readInt (buf : ByteBuf) (v : Int) (buf1 : ByteBuf)
    (h1 : -2147483648 ≤ v) (h2 : v < 2147483648)
    (h : buf.writeInt v = some buf1) :
    ({ buf1 with readerIndex := buf.writerIndex } : ByteBuf).readInt =
      some (v, { buf1 with readerIndex := buf.writerIndex + 4 }) := by
  obtain ⟨d, hset, rfl⟩ := writeInt_some buf v buf1 h
  have hget : getBytes d buf.writerIndex 4 = some (encBE 4 (wrapW 4 v)) := by
    have hg := getBytes_setBytes_self _ _ _ _ hset
    rwa [encBE_length] at hg
  simp only [ByteBuf.readInt, hget, Option.map_some', Option.some.injEq,
    Prod.mk.injEq, and_true]
  rw [decBE_encBE, Nat.mod_eq_of_lt (wrapW_lt 4 v)]
  exact signedRound4 v h1 h2

theorem writeLong_readLong (buf : ByteBuf) (v : Int) (buf1 : ByteBuf)
    (h1 : -9223372036854775808 ≤ v) (h2 : v < 9223372036854775808)
    (h : buf.writeLong v = some buf1) :
    ({ buf1 with readerIndex := buf.writerIndex } : ByteBuf).readLong =
      some (v, { buf1 with readerIndex := buf.writerIndex + 8 }) := by
  obtain ⟨d, hset, rfl⟩ := writeLong_some buf v buf1 h
  have hget : getBytes d buf.writerIndex 8 = some (encBE 8 (wrapW 8 v)) := by
    have hg := getBytes_setBytes_self _ _ _ _ hset
    rwa [encBE_length] at hg
  simp only [ByteBuf.readLong, hget, Option.map_some', Option.some.injEq,
    Prod.mk.injEq, and_true]
  rw [decBE_encBE, Nat.mod_eq_of_lt (wrapW_lt 8 v)]
  exact signedRound8 v h1 h2

/-! ### Claim theorems -/

/-- C1: round-trip for the operation pairs (writeBool, readBool),
(writeByteSigned, readByteSigned), (writeShort, readShort),
(writeInt, readInt), (writeLong, readLong): for every in-range value v and
every position P (the writer cursor of an arbitrary buffer state, with the
write in bounds so that it succeeds), writing v at P and then reading with
the reader cursor at P returns v. -/
theorem C1_roundtrip_fixed_width :
    (∀ (buf : ByteBuf) (b : Bool) (buf1 : ByteBuf),
      buf.writeBool b = some buf1 →
      ({ buf1 with readerIndex := buf.writerIndex } : ByteBuf).readBool =
        some (b, { buf1 with readerIndex := buf.writerIndex + 1 })) ∧
    (∀ (buf : ByteBuf) (v : Int) (buf1 : ByteBuf), -128 ≤ v → v < 128 →
      buf.writeByteSigned v = some buf1 →
      ({ buf1 with readerIndex := buf.writerIndex } : ByteBuf).readByteSigned =
        some (v, { buf1 with readerIndex := buf.writerIndex + 1 })) ∧
    (∀ (buf : ByteBuf) (v : Int) (buf1 : ByteBuf), -32768 ≤ v → v < 32768 →
      buf.writeShort v = some buf1 →
      ({ buf1 with readerIndex := buf.writerIndex } : ByteBuf).readShort =
        some (v, { buf1 with readerIndex := buf.writerIndex + 2 })) ∧
    (∀ (buf : ByteBuf) (v : Int) (buf1 : ByteBuf),
      -2147483648 ≤ v → v < 2147483648 →
      buf.writeInt v = some buf1 →
      ({ buf1 with readerIndex := buf.writerIndex } : ByteBuf).readInt =
        some (v, { buf1 with readerIndex := buf.writerIndex + 4 })) ∧
    (∀ (buf : ByteBuf) (v : Int) (buf1 : ByteBuf),
      -9223372036854775808 ≤ v → v < 9223372036854775808 →
      buf.writeLong v = some buf1 →
      ({ buf1 with readerIndex := buf.writerIndex } : ByteBuf).readLong =
        some (v, { buf1 with readerIndex := buf.writerIndex + 8 })) :=
  ⟨writeBool_readBool, writeByteSigned_readByteSigned, writeShort_readShort,
    writeInt_readInt, writeLong_readLong⟩

/-- Witness for C1 at concrete inputs: true, -5, -2, 1000 and -1 written on
fresh buffers and read back. -/
theorem C1_roundtrip_fixed_width_witness :
    ByteBuf.readBool { readerIndex := 0, writerIndex := 1, data := [1] } =
      some (true, { readerIndex := 1, writerIndex := 1, data := [1] }) ∧
    ByteBuf.readByteSigned { readerIndex := 0, writerIndex := 1, data := [251] } =
      some (-5, { readerIndex := 1, writerIndex := 1, data := [251] }) ∧
    ByteBuf.readShort { readerIndex := 0, writerIndex := 2, data := [255, 254] } =
      some (-2, { readerIndex := 2, writerIndex := 2, data := [255, 254] }) ∧
    ByteBuf.readInt { readerIndex := 0, writerIndex := 4, data := [0, 0, 3, 232] } =
      some (1000, { readerIndex := 4, writerIndex := 4, data := [0, 0, 3, 232] }) ∧
    ByteBuf.readLong { readerIndex := 0, writerIndex := 8, data := [255, 255, 255, 255, 255, 255, 255, 255] } =
      some (-1, { readerIndex := 8, writerIndex := 8, data := [255, 255, 255, 255, 255, 255, 255, 255] }) :=
  ⟨C1_roundtrip_fixed_width.1 (ByteBuf.emptyBuffer 1) true
      { readerIndex := 0, writerIndex := 1, data := [1] } (by decide),
    C1_roundtrip_fixed_width.2.1 (ByteBuf.emptyBuffer 1) (-5)
      { readerIndex := 0, writerIndex := 1, data := [251] }
      (by decide) (by decide) (by decide),
    C1_roundtrip_fixed_width.2.2.1 (ByteBuf.emptyBuffer 2) (-2)
      { readerIndex := 0, writerIndex := 2, data := [255, 254] }
      (by decide) (by decide) (by decide),
    C1_roundtrip_fixed_width.2.2.2.1 (ByteBuf.emptyBuffer 4) 1000
      { readerIndex := 0, writerIndex := 4, data := [0, 0, 3, 232] }
      (by decide) (by decide) (by decide),
    C1_roundtrip_fixed_width.2.2.2.2 (ByteBuf.emptyBuffer 8) (-1)
      { readerIndex := 0, writerIndex := 8, data := [255, 255, 255, 255, 255, 255, 255, 255] }
      (by decide) (by decide) (by decide)⟩

/-- C2: writeByteUnsigned of v in 0..255 at position P followed by
readByteUnsigned at P returns v, and the byte stored at P reads back as
v - 128 under the signed-byte interpretation. -/
theorem C2_uint8_roundtrip_and_storage (buf : ByteBuf) (v : Int) (buf1 : ByteBuf)
    (hv0 : 0 ≤ v) (hv1 : v ≤ 255) (h : buf.writeByteUnsigned v = some buf1) :
    (∃ b, getByte buf1.data buf.writerIndex = some b ∧ toSigned8 b = v - 128) ∧
    ({ buf1 with readerIndex := buf.writerIndex } : ByteBuf).readByteUnsigned =
      some (v, { buf1 with readerIndex := buf.writerIndex + 1 }) := by
  obtain ⟨d, hset, rfl⟩ := writeByteUnsigned_some buf v buf1 h
  have hget : getByte d buf.writerIndex = some (wrapW 1 (v - 128)) :=
    getByte_setByte_self _ _ _ _ hset
  have hsr : toSigned8 (wrapW 1 (v - 128)) = v - 128 :=
    signedRound1 (v - 128) (by omega) (by omega)
  refine ⟨⟨wrapW 1 (v - 128), hget, hsr⟩, ?_⟩
  simp only [ByteBuf.readByteUnsigned, hget, Option.map_some', Option.some.injEq,
    Prod.mk.injEq, and_true]
  rw [hsr]
  ring

/-- Witness for C2 at v = 200 on a fresh one-byte buffer: the stored byte is
72, whose signed reading is 72 = 200 - 128, and the value reads back as 200. -/
theorem C2_uint8_roundtrip_and_storage_witness :
    (∃ b, getByte [72] 0 = some b ∧ toSigned8 b = 200 - 128) ∧
    ByteBuf.readByteUnsigned { readerIndex := 0, writerIndex := 1, data := [72] } =
      some (200, { readerIndex := 1, writerIndex := 1, data := [72] }) :=
  C2_uint8_roundtrip_and_storage (ByteBuf.emptyBuffer 1) 200
    { readerIndex := 0, writerIndex := 1, data := [72] }
    (by decide) (by decide) (by decide)

/-- C9: on a fresh six-byte buffer, writeByteString of the code units of
"AB" stores exactly the bytes 0,0,0,2,65,66 at offsets 0..5; setting the
reader cursor to 0 and calling readByteString returns the code units of "AB"
and leaves the reader cursor at 6. -/
theorem C9_AB_layout_example :
    ByteBuf.writeByteString (ByteBuf.emptyBuffer 6) [65, 66] =
      some { readerIndex := 0, writerIndex := 6, data := [0, 0, 0, 2, 65, 66] } ∧
    ByteBuf.readByteString
        (ByteBuf.setReaderIndex
          { readerIndex := 0, writerIndex := 6, data := [0, 0, 0, 2, 65, 66] } 0) =
      some ([65, 66],
        { readerIndex := 6, writerIndex := 6, data := [0, 0, 0, 2, 65, 66] }) := by
  constructor
  · decide
  · decide

theorem map_mod_self (s : List Nat) (hs : ∀ c ∈ s, c < 256) :
    (s.map fun c => c % 256) = s := by
  induction s with
  | nil => rfl
  | cons c cs ih =>
    simp only [List.map_cons, List.cons.injEq]
    exact ⟨Nat.mod_eq_of_lt (hs c (by simp)), ih fun x hx => hs x (by simp [hx])⟩

/-- C3: writeByteString of a string whose code units are all below 256 at
position P, followed by readByteString with the reader cursor at P, returns
the same code-unit sequence; the write advances the writer cursor by exactly
4 + length s and the read advances the reader cursor by exactly 4 + length s.
The length bound keeps the 4-byte signed prefix faithful; JavaScript engines
cap string lengths well below it. -/
theorem C3_string_roundtrip (buf : ByteBuf) (s : List Nat) (buf1 : ByteBuf)
    (hs : ∀ c ∈ s, c < 256) (hlen : s.length < 2147483648)
    (h : buf.writeByteString s = some buf1) :
    buf1.writerIndex = buf.writerIndex + (4 + (s.length : Int)) ∧
    buf1.readerIndex = buf.readerIndex ∧
    ({ buf1 with readerIndex := buf.writerIndex } : ByteBuf).readByteString =
      some (s, { buf1 with readerIndex := buf.writerIndex + (4 + (s.length : Int)) }) := by
  obtain ⟨d, d2, hset1, hset2, rfl⟩ := writeByteString_some buf s buf1 h
  refine ⟨by push_cast; ring, rfl, ?_⟩
  have hpre : getBytes d2 buf.writerIndex 4 =
      some (encBE 4 (wrapW 4 (s.length : Int))) := by
    have hframe : ∀ j, buf.writerIndex ≤ j → j < buf.writerIndex + (4 : Int) →
        getByte d2 j = getByte d j := by
      intro j hj1 hj2
      exact getByte_setBytes_frame _ _ _ _ _ hset2 (Or.inl hj2)
    rw [getBytes_congr 4 d2 d buf.writerIndex hframe]
    have hg := getBytes_setBytes_self _ _ _ _ hset1
    rwa [encBE_length] at hg
  have hn : toSignedW 4 (decBE (encBE 4 (wrapW 4 (s.length : Int)))) =
      (s.length : Int) := by
    rw [decBE_encBE, Nat.mod_eq_of_lt (wrapW_lt 4 _)]
    exact signedRound4 _ (by omega) (by exact_mod_cast hlen)
  have hchars : getBytes d2 (buf.writerIndex + 4) s.length = some s := by
    have hg := getBytes_setBytes_self _ _ _ _ hset2
    rwa [List.length_map, map_mod_self s hs] at hg
  simp only [ByteBuf.readByteString, ByteBuf.readInt, hpre, Option.map_some',
    Option.some_bind, hn]
  rcases Nat.eq_zero_or_pos s.length with hz | hpos
  · rw [List.length_eq_zero] at hz
    subst hz
    norm_num
  · rw [if_pos (by exact_mod_cast hpos)]
    rw [show ((s.length : Int)).toNat = s.length from Int.toNat_natCast _]
    simp only [hchars, Option.map_some', Option.some.injEq, Prod.mk.injEq,
      ByteBuf.mk.injEq, true_and, and_true]
    ring

/-- Witness for C3 on a fresh six-byte buffer and the code units of "AB". -/
theorem C3_string_roundtrip_witness :
    ({ readerIndex := 0, writerIndex := 6, data := [0, 0, 0, 2, 65, 66] } : ByteBuf).writerIndex = 0 + (4 + 2) ∧
    ({ readerIndex := 0, writerIndex := 6, data := [0, 0, 0, 2, 65, 66] } : ByteBuf).readerIndex = 0 ∧
    ByteBuf.readByteString { readerIndex := 0, writerIndex := 6, data := [0, 0, 0, 2, 65, 66] } =
      some ([65, 66], { readerIndex := 0 + (4 + 2), writerIndex := 6, data := [0, 0, 0, 2, 65, 66] }) :=
  C3_string_roundtrip (ByteBuf.emptyBuffer 6) [65, 66]
    { readerIndex := 0, writerIndex := 6, data := [0, 0, 0, 2, 65, 66] }
    (by decide) (by decide) (by decide)

/-- C5: when the 4-byte big-endian signed length prefix at the reader cursor
decodes to a negative n, readByteString signals no error: it returns the
empty string and leaves the reader cursor at start + 4 + n, a position
before the end of the prefix. -/
theorem C5_negative_length_prefix (buf : ByteBuf) (n : Int) (buf1 : ByteBuf)
    (hread : buf.readInt = some (n, buf1)) (hneg : n < 0) :
    buf.readByteString =
      some ([], { buf with readerIndex := buf.readerIndex + 4 + n }) := by
  obtain ⟨bs, hbs, hrv, hb1⟩ := readInt_some buf n buf1 hread
  simp only [ByteBuf.readByteString, hread, Option.some_bind]
  rw [if_neg (by omega)]
  subst hb1
  rfl

/-- Witness for C5 on the buffer 255,255,255,255 whose prefix decodes to -1:
readByteString returns the empty string and the reader cursor ends at 3. -/
theorem C5_negative_length_prefix_witness :
    ByteBuf.readByteString (ByteBuf.fromData [255, 255, 255, 255]) =
      some ([], { readerIndex := 0 + 4 + -1, writerIndex := 0, data := [255, 255, 255, 255] }) :=
  C5_negative_length_prefix (ByteBuf.fromData [255, 255, 255, 255]) (-1)
    { readerIndex := 0 + 4, writerIndex := 0, data := [255, 255, 255, 255] }
    (by decide) (by decide)

/-- C6: writeBool stores exactly byte 1 for true and byte 0 for false, and
readBool returns true exactly when the byte at the reader cursor is 1; every
other byte value (2, 255, ...) reads as false. -/
theorem C6_bool_bytes :
    (∀ (buf : ByteBuf) (b : Bool) (buf1 : ByteBuf), buf.writeBool b = some buf1 →
      getByte buf1.data buf.writerIndex = some (if b then 1 else 0)) ∧
    (∀ (buf : ByteBuf) (c : Nat) (r : Bool) (buf1 : ByteBuf),
      getByte buf.data buf.readerIndex = some c → c < 256 →
      buf.readBool = some (r, buf1) → (r = true ↔ c = 1)) := by
  constructor
  · intro buf b buf1 h
    obtain ⟨d, hset, rfl⟩ := writeBool_some buf b buf1 h
    exact getByte_setByte_self _ _ _ _ hset
  · intro buf c r buf1 hc hlt h
    obtain ⟨b, hb, hrv, _⟩ := readBool_some buf r buf1 h
    rw [hc] at hb
    obtain rfl := Option.some.inj hb
    subst hrv
    simp only [beq_iff_eq]
    unfold toSigned8
    split <;> omega

/-- Witness for C6: writing true on a fresh buffer stores byte 1, and a
buffer holding byte 255 reads as false. -/
theorem C6_bool_bytes_witness :
    getByte [1] 0 = some (if true then 1 else 0) ∧
    (false = true ↔ 255 = 1) :=
  ⟨C6_bool_bytes.1 (ByteBuf.emptyBuffer 1) true
      { readerIndex := 0, writerIndex := 1, data := [1] } (by decide),
    C6_bool_bytes.2 (ByteBuf.fromData [255]) 255 false
      { readerIndex := 1, writerIndex := 0, data := [255] }
      (by decide) (by decide) (by decide)⟩

theorem step_frame (buf : ByteBuf) (op : Op) (buf1 : ByteBuf)
    (h : step buf op = some buf1) :
    (isWriteOp op = true → buf1.readerIndex = buf.readerIndex) ∧
    (isReadOp op = true → buf1.writerIndex = buf.writerIndex) := by
  cases op with
  | opReadBool =>
    simp only [step, Option.map_eq_some'] at h
    obtain ⟨⟨r, b1⟩, hr, rfl⟩ := h
    obtain ⟨b, hb, hrv, rfl⟩ := readBool_some buf r b1 hr
    exact ⟨fun hh => (nomatch hh), fun _ => rfl⟩
  | opReadByteSigned =>
    simp only [step, Option.map_eq_some'] at h
    obtain ⟨⟨r, b1⟩, hr, rfl⟩ := h
    obtain ⟨b, hb, hrv, rfl⟩ := readByteSigned_some buf r b1 hr
    exact ⟨fun hh => (nomatch hh), fun _ => rfl⟩
  | opReadByteUnsigned =>
    simp only [step, Option.map_eq_some'] at h
    obtain ⟨⟨r, b1⟩, hr, rfl⟩ := h
    obtain ⟨b, hb, hrv, rfl⟩ := readByteUnsigned_some buf r b1 hr
    exact ⟨fun hh => (nomatch hh), fun _ => rfl⟩
  | opReadShort =>
    simp only [step, Option.map_eq_some'] at h
    obtain ⟨⟨r, b1⟩, hr, rfl⟩ := h
    obtain ⟨bs, hb, hrv, rfl⟩ := readShort_some buf r b1 hr
    exact ⟨fun hh => (nomatch hh), fun _ => rfl⟩
  | opReadFloat =>
    simp only [step, Option.map_eq_some'] at h
    obtain ⟨⟨r, b1⟩, hr, rfl⟩ := h
    obtain ⟨bs, hb, hrv, rfl⟩ := readFloat_some buf r b1 hr
    exact ⟨fun hh => (nomatch hh), fun _ => rfl⟩
  | opReadInt =>
    simp only [step, Option.map_eq_some'] at h
    obtain ⟨⟨r, b1⟩, hr, rfl⟩ := h
    obtain ⟨bs, hb, hrv, rfl⟩ := readInt_some buf r b1 hr
    exact ⟨fun hh => (nomatch hh), fun _ => rfl⟩
  | opReadLong =>
    simp only [step, Option.map_eq_some'] at h
    obtain ⟨⟨r, b1⟩, hr, rfl⟩ := h
    obtain ⟨bs, hb, hrv, rfl⟩ := readLong_some buf r b1 hr
    exact ⟨fun hh => (nomatch hh), fun _ => rfl⟩
  | opReadByteString =>
    simp only [step, Option.map_eq_some'] at h
    obtain ⟨⟨s, b1⟩, hr, rfl⟩ := h
    obtain ⟨n, hn, hw, hd, hri⟩ := readByteString_some buf s b1 hr
    exact ⟨fun hh => (nomatch hh), fun _ => hw⟩
  | opWriteBool b =>
    obtain ⟨d, hset, rfl⟩ := writeBool_some buf b buf1 h
    exact ⟨fun _ => rfl, fun hh => (nomatch hh)⟩
  | opWriteByteSigned v =>
    obtain ⟨d, hset, rfl⟩ := writeByteSigned_some buf v buf1 h
    exact ⟨fun _ => rfl, fun hh => (nomatch hh)⟩
  | opWriteByteUnsigned v =>
    obtain ⟨d, hset, rfl⟩ := writeByteUnsigned_some buf v buf1 h
    exact ⟨fun _ => rfl, fun hh => (nomatch hh)⟩
  | opWriteShort v =>
    obtain ⟨d, hset, rfl⟩ := writeShort_some buf v buf1 h
    exact ⟨fun _ => rfl, fun hh => (nomatch hh)⟩
  | opWriteFloat bits =>
    obtain ⟨d, hset, rfl⟩ := writeFloat_some buf bits buf1 h
    exact ⟨fun _ => rfl, fun hh => (nomatch hh)⟩
  | opWriteInt v =>
    obtain ⟨d, hset, rfl⟩ := writeInt_some buf v buf1 h
    exact ⟨fun _ => rfl, fun hh => (nomatch hh)⟩
  | opWriteLong v =>
    obtain ⟨d, hset, rfl⟩ := writeLong_some buf v buf1 h
    exact ⟨fun _ => rfl, fun hh => (nomatch hh)⟩
  | opWriteByteString s =>
    obtain ⟨d, d2, hset1, hset2, rfl⟩ := writeByteString_some buf s buf1 h
    exact ⟨fun _ => rfl, fun hh => (nomatch hh)⟩
  | opSetReaderIndex i =>
    obtain rfl := Option.some.inj h
    exact ⟨fun hh => (nomatch hh), fun _ => rfl⟩
  | opSetWriterIndex i =>
    obtain rfl := Option.some.inj h
    exact ⟨fun _ => rfl, fun hh => (nomatch hh)⟩
  | opSkipReader n =>
    obtain rfl := Option.some.inj h
    exact ⟨fun hh => (nomatch hh), fun _ => rfl⟩
  | opSkipWriter n =>
    obtain rfl := Option.some.inj h
    exact ⟨fun _ => rfl, fun hh => (nomatch hh)⟩

/-- C7: cursor independence. For every successful method call, if it is a
write-side operation (the writes, setWriterIndex, skipWriter) the reader
cursor is unchanged, and if it is a read-side operation (the reads,
setReaderIndex, skipReader) the writer cursor is unchanged. -/
theorem C7_cursor_independence (buf : ByteBuf) (op : Op) (buf1 : ByteBuf)
    (h : step buf op = some buf1) :
    (isWriteOp op = true → buf1.readerIndex = buf.readerIndex) ∧
    (isReadOp op = true → buf1.writerIndex = buf.writerIndex) :=
  step_frame buf op buf1 h

/-- Witness for C7: writeShort on a fresh two-byte buffer keeps the reader
cursor at 0, and readShort on the result keeps the writer cursor at 2. -/
theorem C7_cursor_independence_witness :
    ((isWriteOp (Op.opWriteShort 5) = true →
      ({ readerIndex := 0, writerIndex := 2, data := [0, 5] } : ByteBuf).readerIndex =
        (ByteBuf.emptyBuffer 2).readerIndex) ∧
     (isReadOp (Op.opWriteShort 5) = true →
      ({ readerIndex := 0, writerIndex := 2, data := [0, 5] } : ByteBuf).writerIndex =
        (ByteBuf.emptyBuffer 2).writerIndex)) ∧
    ((isWriteOp Op.opReadShort = true →
      ({ readerIndex := 2, writerIndex := 2, data := [0, 5] } : ByteBuf).readerIndex =
        ({ readerIndex := 0, writerIndex := 2, data := [0, 5] } : ByteBuf).readerIndex) ∧
     (isReadOp Op.opReadShort = true →
      ({ readerIndex := 2, writerIndex := 2, data := [0, 5] } : ByteBuf).writerIndex =
        ({ readerIndex := 0, writerIndex := 2, data := [0, 5] } : ByteBuf).writerIndex)) :=
  ⟨C7_cursor_independence (ByteBuf.emptyBuffer 2) (Op.opWriteShort 5)
      { readerIndex := 0, writerIndex := 2, data := [0, 5] } (by decide),
    C7_cursor_independence { readerIndex := 0, writerIndex := 2, data := [0, 5] }
      Op.opReadShort { readerIndex := 2, writerIndex := 2, data := [0, 5] } (by decide)⟩

/-- C8: cursor advancement. Each successful fixed-width read advances the
reader cursor by exactly its byte width (1 for bool and the byte reads, 2
for short, 4 for float and int, 8 for long), each successful fixed-width
write advances the writer cursor by exactly its byte width, and skipReader
and skipWriter change their cursor by exactly the argument, for every
integer argument including negative ones. -/
theorem C8_cursor_advancement :
    (∀ (buf : ByteBuf) (r : Bool) (buf1 : ByteBuf),
      buf.readBool = some (r, buf1) → buf1.readerIndex = buf.readerIndex + 1) ∧
    (∀ (buf : ByteBuf) (r : Int) (buf1 : ByteBuf),
      buf.readByteSigned = some (r, buf1) → buf1.readerIndex = buf.readerIndex + 1) ∧
    (∀ (buf : ByteBuf) (r : Int) (buf1 : ByteBuf),
      buf.readByteUnsigned = some (r, buf1) → buf1.readerIndex = buf.readerIndex + 1) ∧
    (∀ (buf : ByteBuf) (r : Int) (buf1 : ByteBuf),
      buf.readShort = some (r, buf1) → buf1.readerIndex = buf.readerIndex + 2) ∧
    (∀ (buf : ByteBuf) (r : Nat) (buf1 : ByteBuf),
      buf.readFloat = some (r, buf1) → buf1.readerIndex = buf.readerIndex + 4) ∧
    (∀ (buf : ByteBuf) (r : Int) (buf1 : ByteBuf),
      buf.readInt = some (r, buf1) → buf1.readerIndex = buf.readerIndex + 4) ∧
    (∀ (buf : ByteBuf) (r : Int) (buf1 : ByteBuf),
      buf.readLong = some (r, buf1) → buf1.readerIndex = buf.readerIndex + 8) ∧
    (∀ (buf : ByteBuf) (b : Bool) (buf1 : ByteBuf),
      buf.writeBool b = some buf1 → buf1.writerIndex = buf.writerIndex + 1) ∧
    (∀ (buf : ByteBuf) (v : Int) (buf1 : ByteBuf),
      buf.writeByteSigned v = some buf1 → buf1.writerIndex = buf.writerIndex + 1) ∧
    (∀ (buf : ByteBuf) (v : Int) (buf1 : ByteBuf),
      buf.writeByteUnsigned v = some buf1 → buf1.writerIndex = buf.writerIndex + 1) ∧
    (∀ (buf : ByteBuf) (v : Int) (buf1 : ByteBuf),
      buf.writeShort v = some buf1 → buf1.writerIndex = buf.writerIndex + 2) ∧
    (∀ (buf : ByteBuf) (bits : Nat) (buf1 : ByteBuf),
      buf.writeFloat bits = some buf1 → buf1.writerIndex = buf.writerIndex + 4) ∧
    (∀ (buf : ByteBuf) (v : Int) (buf1 : ByteBuf),
      buf.writeInt v = some buf1 → buf1.writerIndex = buf.writerIndex + 4) ∧
    (∀ (buf : ByteBuf) (v : Int) (buf1 : ByteBuf),
      buf.writeLong v = some buf1 → buf1.writerIndex = buf.writerIndex + 8) ∧
    (∀ (buf : ByteBuf) (n : Int),
      (buf.skipReader n).readerIndex = buf.readerIndex + n) ∧
    (∀ (buf : ByteBuf) (n : Int),
      (buf.skipWriter n).writerIndex = buf.writerIndex + n) :=
  ⟨fun buf r b1 h => by obtain ⟨b, hb, hv, rfl⟩ := readBool_some buf r b1 h; rfl,
   fun buf r b1 h => by obtain ⟨b, hb, hv, rfl⟩ := readByteSigned_some buf r b1 h; rfl,
   fun buf r b1 h => by obtain ⟨b, hb, hv, rfl⟩ := readByteUnsigned_some buf r b1 h; rfl,
   fun buf r b1 h => by obtain ⟨bs, hb, hv, rfl⟩ := readShort_some buf r b1 h; rfl,
   fun buf r b1 h => by obtain ⟨bs, hb, hv, rfl⟩ := readFloat_some buf r b1 h; rfl,
   fun buf r b1 h => by obtain ⟨bs, hb, hv, rfl⟩ := readInt_some buf r b1 h; rfl,
   fun buf r b1 h => by obtain ⟨bs, hb, hv, rfl⟩ := readLong_some buf r b1 h; rfl,
   fun buf b b1 h => by obtain ⟨d, hd, rfl⟩ := writeBool_some buf b b1 h; rfl,
   fun buf v b1 h => by obtain ⟨d, hd, rfl⟩ := writeByteSigned_some buf v b1 h; rfl,
   fun buf v b1 h => by obtain ⟨d, hd, rfl⟩ := writeByteUnsigned_some buf v b1 h; rfl,
   fun buf v b1 h => by obtain ⟨d, hd, rfl⟩ := writeShort_some buf v b1 h; rfl,
   fun buf bits b1 h => by obtain ⟨d, hd, rfl⟩ := writeFloat_some buf bits b1 h; rfl,
   fun buf v b1 h => by obtain ⟨d, hd, rfl⟩ := writeInt_some buf v b1 h; rfl,
   fun buf v b1 h => by obtain ⟨d, hd, rfl⟩ := writeLong_some buf v b1 h; rfl,
   fun buf n => rfl,
   fun buf n => rfl⟩

/-- Witness for C8: each operation exercised on a concrete buffer; skips are
exercised with a negative argument. -/
theorem C8_cursor_advancement_witness :
    ({ readerIndex := 1, writerIndex := 0, data := [0, 0, 0, 0, 0, 0, 0, 0] } : ByteBuf).readerIndex = 0 + 1 ∧
    ({ readerIndex := 2, writerIndex := 0, data := [0, 0, 0, 0, 0, 0, 0, 0] } : ByteBuf).readerIndex = 0 + 2 ∧
    ({ readerIndex := 4, writerIndex := 0, data := [0, 0, 0, 0, 0, 0, 0, 0] } : ByteBuf).readerIndex = 0 + 4 ∧
    ({ readerIndex := 8, writerIndex := 0, data := [0, 0, 0, 0, 0, 0, 0, 0] } : ByteBuf).readerIndex = 0 + 8 ∧
    ({ readerIndex := 0, writerIndex := 1, data := [1, 0, 0, 0, 0, 0, 0, 0] } : ByteBuf).writerIndex = 0 + 1 ∧
    ({ readerIndex := 0, writerIndex := 2, data := [0, 3, 0, 0, 0, 0, 0, 0] } : ByteBuf).writerIndex = 0 + 2 ∧
    ({ readerIndex := 0, writerIndex := 4, data := [0, 0, 0, 3, 0, 0, 0, 0] } : ByteBuf).writerIndex = 0 + 4 ∧
    ({ readerIndex := 0, writerIndex := 8, data := [0, 0, 0, 0, 0, 0, 0, 3] } : ByteBuf).writerIndex = 0 + 8 ∧
    ((ByteBuf.fromData [0]).skipReader (-3)).readerIndex = 0 + -3 ∧
    ((ByteBuf.fromData [0]).skipWriter (-3)).writerIndex = 0 + -3 :=
  ⟨C8_cursor_advancement.1 (ByteBuf.fromData [0, 0, 0, 0, 0, 0, 0, 0]) false
      { readerIndex := 1, writerIndex := 0, data := [0, 0, 0, 0, 0, 0, 0, 0] } (by decide),
   C8_cursor_advancement.2.2.2.1 (ByteBuf.fromData [0, 0, 0, 0, 0, 0, 0, 0]) 0
      { readerIndex := 2, writerIndex := 0, data := [0, 0, 0, 0, 0, 0, 0, 0] } (by decide),
   C8_cursor_advancement.2.2.2.2.2.1 (ByteBuf.fromData [0, 0, 0, 0, 0, 0, 0, 0]) 0
      { readerIndex := 4, writerIndex := 0, data := [0, 0, 0, 0, 0, 0, 0, 0] } (by decide),
   C8_cursor_advancement.2.2.2.2.2.2.1 (ByteBuf.fromData [0, 0, 0, 0, 0, 0, 0, 0]) 0
      { readerIndex := 8, writerIndex := 0, data := [0, 0, 0, 0, 0, 0, 0, 0] } (by decide),
   C8_cursor_advancement.2.2.2.2.2.2.2.1 (ByteBuf.emptyBuffer 8) true
      { readerIndex := 0, writerIndex := 1, data := [1, 0, 0, 0, 0, 0, 0, 0] } (by decide),
   C8_cursor_advancement.2.2.2.2.2.2.2.2.2.2.1 (ByteBuf.emptyBuffer 8) 3
      { readerIndex := 0, writerIndex := 2, data := [0, 3, 0, 0, 0, 0, 0, 0] } (by decide),
   C8_cursor_advancement.2.2.2.2.2.2.2.2.2.2.2.2.1 (ByteBuf.emptyBuffer 8) 3
      { readerIndex := 0, writerIndex := 4, data := [0, 0, 0, 3, 0, 0, 0, 0] } (by decide),
   C8_cursor_advancement.2.2.2.2.2.2.2.2.2.2.2.2.2.1 (ByteBuf.emptyBuffer 8) 3
      { readerIndex := 0, writerIndex := 8, data := [0, 0, 0, 0, 0, 0, 0, 3] } (by decide),
   C8_cursor_advancement.2.2.2.2.2.2.2.2.2.2.2.2.2.2.1 (ByteBuf.fromData [0]) (-3),
   C8_cursor_advancement.2.2.2.2.2.2.2.2.2.2.2.2.2.2.2 (ByteBuf.fromData [0]) (-3)⟩

theorem step_nonneg (buf : ByteBuf) (op : Op) (buf1 : ByteBuf)
    (hg : guardedOp op = true) (h : step buf op = some buf1)
    (hr : 0 ≤ buf.readerIndex) (hw : 0 ≤ buf.writerIndex) :
    0 ≤ buf1.readerIndex ∧ 0 ≤ buf1.writerIndex := by
  cases op with
  | opReadBool =>
    simp only [step, Option.map_eq_some'] at h
    obtain ⟨⟨r, b1⟩, hro, rfl⟩ := h
    obtain ⟨b, hb, hv, rfl⟩ := readBool_some buf r b1 hro
    exact ⟨by simp only; omega, hw⟩
  | opReadByteSigned =>
    simp only [step, Option.map_eq_some'] at h
    obtain ⟨⟨r, b1⟩, hro, rfl⟩ := h
    obtain ⟨b, hb, hv, rfl⟩ := readByteSigned_some buf r b1 hro
    exact ⟨by simp only; omega, hw⟩
  | opReadByteUnsigned =>
    simp only [step, Option.map_eq_some'] at h
    obtain ⟨⟨r, b1⟩, hro, rfl⟩ := h
    obtain ⟨b, hb, hv, rfl⟩ := readByteUnsigned_some buf r b1 hro
    exact ⟨by simp only; omega, hw⟩
  | opReadShort =>
    simp only [step, Option.map_eq_some'] at h
    obtain ⟨⟨r, b1⟩, hro, rfl⟩ := h
    obtain ⟨bs, hb, hv, rfl⟩ := readShort_some buf r b1 hro
    exact ⟨by simp only; omega, hw⟩
  | opReadFloat =>
    simp only [step, Option.map_eq_some'] at h
    obtain ⟨⟨r, b1⟩, hro, rfl⟩ := h
    obtain ⟨bs, hb, hv, rfl⟩ := readFloat_some buf r b1 hro
    exact ⟨by simp only; omega, hw⟩
  | opReadInt =>
    simp only [step, Option.map_eq_some'] at h
    obtain ⟨⟨r, b1⟩, hro, rfl⟩ := h
    obtain ⟨bs, hb, hv, rfl⟩ := readInt_some buf r b1 hro
    exact ⟨by simp only; omega, hw⟩
  | opReadLong =>
    simp only [step, Option.map_eq_some'] at h
    obtain ⟨⟨r, b1⟩, hro, rfl⟩ := h
    obtain ⟨bs, hb, hv, rfl⟩ := readLong_some buf r b1 hro
    exact ⟨by simp only; omega, hw⟩
  | opReadByteString => simp [guardedOp] at hg
  | opWriteBool b =>
    obtain ⟨d, hd, rfl⟩ := writeBool_some buf b buf1 h
    exact ⟨hr, by simp only; omega⟩
  | opWriteByteSigned v =>
    obtain ⟨d, hd, rfl⟩ := writeByteSigned_some buf v buf1 h
    exact ⟨hr, by simp only; omega⟩
  | opWriteByteUnsigned v =>
    obtain ⟨d, hd, rfl⟩ := writeByteUnsigned_some buf v buf1 h
    exact ⟨hr, by simp only; omega⟩
  | opWriteShort v =>
    obtain ⟨d, hd, rfl⟩ := writeShort_some buf v buf1 h
    exact ⟨hr, by simp only; omega⟩
  | opWriteFloat bits =>
    obtain ⟨d, hd, rfl⟩ := writeFloat_some buf bits buf1 h
    exact ⟨hr, by simp only; omega⟩
  | opWriteInt v =>
    obtain ⟨d, hd, rfl⟩ := writeInt_some buf v buf1 h
    exact ⟨hr, by simp only; omega⟩
  | opWriteLong v =>
    obtain ⟨d, hd, rfl⟩ := writeLong_some buf v buf1 h
    exact ⟨hr, by simp only; omega⟩
  | opWriteByteString s =>
    obtain ⟨d, d2, h1, h2, rfl⟩ := writeByteString_some buf s buf1 h
    refine ⟨hr, ?_⟩
    simp only
    have hc : (0 : Int) ≤ (s.length : Int) := by positivity
    omega
  | opSetReaderIndex i =>
    obtain rfl := Option.some.inj h
    exact ⟨of_decide_eq_true hg, hw⟩
  | opSetWriterIndex i =>
    obtain rfl := Option.some.inj h
    exact ⟨hr, of_decide_eq_true hg⟩
  | opSkipReader n =>
    obtain rfl := Option.some.inj h
    have hn : (0 : Int) ≤ n := of_decide_eq_true hg
    exact ⟨by simp only [ByteBuf.skipReader]; omega, hw⟩
  | opSkipWriter n =>
    obtain rfl := Option.some.inj h
    have hn : (0 : Int) ≤ n := of_decide_eq_true hg
    exact ⟨hr, by simp only [ByteBuf.skipWriter]; omega⟩

theorem run_nonneg (ops : List Op) :
    ∀ buf buf1, (∀ op ∈ ops, guardedOp op = true) → run buf ops = some buf1 →
      0 ≤ buf.readerIndex → 0 ≤ buf.writerIndex →
      0 ≤ buf1.readerIndex ∧ 0 ≤ buf1.writerIndex := by
  induction ops with
  | nil =>
    intro buf buf1 _ h hr hw
    cases h
    exact ⟨hr, hw⟩
  | cons op ops ih =>
    intro buf buf1 hall h hr hw
    simp only [run, Option.bind_eq_some] at h
    obtain ⟨buf2, hstep, hrun⟩ := h
    obtain ⟨h1, h2⟩ := step_nonneg buf op buf2 (hall op (by simp)) hstep hr hw
    exact ih buf2 buf1 (fun o ho => hall o (by simp [ho])) hrun h1 h2

/-- C4 counterexample: setReaderIndex(-1) on a fresh buffer is a public
operation sequence reaching a state with a negative reader cursor, so the
claimed invariant does not hold for arbitrary set and skip arguments. -/
theorem C4_counterexample_negative_cursor :
    run (ByteBuf.emptyBuffer 1) [Op.opSetReaderIndex (-1)] =
      some { readerIndex := -1, writerIndex := 0, data := [0] } ∧
    ¬ (0 ≤ ({ readerIndex := -1, writerIndex := 0, data := [0] } : ByteBuf).readerIndex) := by
  decide

/-- C4 (amended): the invariant 0 ≤ readerIndex and 0 ≤ writerIndex holds in
every state reachable from a freshly constructed buffer by sequences of
public operations in which setReaderIndex and setWriterIndex are given only
nonnegative indices, skipReader and skipWriter only nonnegative amounts, and
readByteString does not occur (setting a negative index, skipping below
zero, and a readByteString on a negative corrupt length prefix each produce
a negative cursor). -/
theorem C4_cursors_nonneg_guarded (d : List Nat) (ops : List Op) (buf1 : ByteBuf)
    (hall : ∀ op ∈ ops, guardedOp op = true)
    (h : run (ByteBuf.fromData d) ops = some buf1) :
    0 ≤ buf1.readerIndex ∧ 0 ≤ buf1.writerIndex :=
  run_nonneg ops (ByteBuf.fromData d) buf1 hall h (le_refl 0) (le_refl 0)

/-- Witness for C4 (amended) on the sequence setReaderIndex 2 then
skipWriter 1 from a fresh two-byte buffer. -/
theorem C4_cursors_nonneg_guarded_witness :
    0 ≤ ({ readerIndex := 2, writerIndex := 1, data := [0, 0] } : ByteBuf).readerIndex ∧
    0 ≤ ({ readerIndex := 2, writerIndex := 1, data := [0, 0] } : ByteBuf).writerIndex :=
  C4_cursors_nonneg_guarded [0, 0] [Op.opSetReaderIndex 2, Op.opSkipWriter 1]
    { readerIndex := 2, writerIndex := 1, data := [0, 0] }
    (by decide) (by decide)

theorem getBytes_getByte (k : Nat) :
    ∀ (d : List Nat) (i : Int) (bs : List Nat), getBytes d i k = some bs →
      ∀ (j : Nat) (hj : j < bs.length), getByte d (i + (j : Int)) = some (bs.get ⟨j, hj⟩) := by
  induction k with
  | zero =>
    intro d i bs h j hj
    cases h
    exact absurd hj (by simp)
  | succ k ih =>
    intro d i bs h j hj
    simp only [getBytes, Option.bind_eq_some, Option.map_eq_some'] at h
    obtain ⟨b, hb, bs2, hbs2, rfl⟩ := h
    cases j with
    | zero => simpa using hb
    | succ j =>
      have hrec := ih d (i + 1) bs2 hbs2 j (by simpa using hj)
      rw [show i + ((j + 1 : Nat) : Int) = i + 1 + (j : Int) by push_cast; ring]
      simpa using hrec

/-- C10: the byte writeByteString stores for character i is that code unit
reduced modulo 256, and consequently a string holding the code unit 321
(above 255) does not round-trip: it is written as byte 65 and reads back as
the code units of "A". -/
theorem C10_chars_stored_mod256 :
    (∀ (buf : ByteBuf) (s : List Nat) (buf1 : ByteBuf) (i : Nat) (hi : i < s.length),
      buf.writeByteString s = some buf1 →
      getByte buf1.data (buf.writerIndex + 4 + (i : Int)) =
        some (s.get ⟨i, hi⟩ % 256)) ∧
    (ByteBuf.writeByteString (ByteBuf.emptyBuffer 5) [321] =
        some { readerIndex := 0, writerIndex := 5, data := [0, 0, 0, 1, 65] } ∧
      ByteBuf.readByteString { readerIndex := 0, writerIndex := 5, data := [0, 0, 0, 1, 65] } =
        some ([65], { readerIndex := 5, writerIndex := 5, data := [0, 0, 0, 1, 65] }) ∧
      [65] ≠ [321]) := by
  constructor
  · intro buf s buf1 i hi h
    obtain ⟨d, d2, hset1, hset2, rfl⟩ := writeByteString_some buf s buf1 h
    have hmap := getBytes_setBytes_self _ _ _ _ hset2
    have hpt := getBytes_getByte (s.map fun c => c % 256).length d2
      (buf.writerIndex + 4) (s.map fun c => c % 256) hmap i
      (by simpa using hi)
    simp only [List.get_map] at hpt
    exact hpt
  · exact ⟨by decide, by decide, by decide⟩

/-- Witness for C10: on a fresh five-byte buffer, the byte stored for the
single character 321 is 65 = 321 mod 256. -/
theorem C10_chars_stored_mod256_witness :
    getByte [0, 0, 0, 1, 65] (0 + 4 + 0) = some 65 := by
  have h := C10_chars_stored_mod256.1 (ByteBuf.emptyBuffer 5) [321]
    { readerIndex := 0, writerIndex := 5, data := [0, 0, 0, 1, 65] }
    0 (by decide) (by decide)
  exact h
